import Mathlib

/-!
Verification of the Venmail webhook SDK core: signature verification,
shared-secret comparison, payload classification and delivery-event
normalization, as implemented in `src/index.ts`.

JavaScript runtime values carried in webhook payloads are modelled by the
inductive type `JSVal`; numbers are modelled as integers (no payload logic
depends on fractional values), and property access on non-objects yields
`undefined`, as it does in JavaScript for the field names used here.
-/

/-- Model of a decoded JSON / JavaScript runtime value. -/
inductive JSVal where
  | undefined : JSVal
  | null : JSVal
  | bool : Bool → JSVal
  | num : Int → JSVal
  | str : String → JSVal
  | obj : List (String × JSVal) → JSVal
  | arr : List JSVal → JSVal

/-- JavaScript truthiness: `undefined`, `null`, `false`, `0` and `""` are
falsy; every object and array is truthy. -/
def truthy : JSVal → Bool
  | .undefined => false
  | .null => false
  | .bool b => b
  | .num n => n != 0
  | .str s => s != ""
  | .obj _ => true
  | .arr _ => true

/-- JS `typeof v === "string"`. -/
def isStringVal : JSVal → Bool
  | .str _ => true
  | _ => false

/-- JS `v === null || v === undefined` (the values treated by `??` and `?.`). -/
def nullish : JSVal → Bool
  | .undefined => true
  | .null => true
  | _ => false

/-- Property read `v[k]`: on an object, the bound value (or `undefined` when
the key is absent); on any non-object, `undefined` (faithful for the payload
field names used by this SDK, which are not methods of JS primitives). -/
def getField (v : JSVal) (k : String) : JSVal :=
  match v with
  | .obj fs =>
    match fs.find? (fun p => p.1 == k) with
    | some p => p.2
    | none => .undefined
  | _ => .undefined

/-- JavaScript `String.prototype.split` with a single-character separator,
on the character list of the string: splits at every occurrence, keeping
empty segments; the result is never empty. -/
def splitOnChar (c : Char) : List Char → List (List Char)
  | [] => [[]]
  | x :: xs =>
    let r := splitOnChar c xs
    if x = c then [] :: r
    else (x :: r.headI) :: r.tail

/-- JS `s.split(sep)` for a one-character separator `sep`. -/
def jsSplit (s : String) (c : Char) : List String :=
  (splitOnChar c s.data).map (fun l => ⟨l⟩)

/-- JS `s.startsWith(p)`. -/
def jsStartsWith (s p : String) : Bool :=
  p.data.isPrefixOf s.data

/-- Model of `extractCampaignId` from `src/index.ts`: returns `null` unless `tag` is a
truthy string; for a string starting with `"campaign:"` returns
`tag.split(":")[1] ?? null`, otherwise `null`.  `none` models JS `null`. -/
def extractCampaignId (tag : JSVal) : Option String :=
  match tag with
  | .str s =>
    if s = "" then none
    else if jsStartsWith s "campaign:" then (jsSplit s ':')[1]?
    else none
  | _ => none

/-- JS `Boolean(x)` for a JS `string | null` value (`none` models `null`). -/
def truthyStrOrNull : Option String → Bool
  | none => false
  | some s => s != ""

/-- Result shape of `detectVenmailWebhookKind`; `isCampaignEvent` and
`campaignId` are `none` when the corresponding property is absent from the
returned object, and `campaignId = some none` models an explicit JS `null`. -/
structure VenmailWebhookInspection where
  kind : String
  isCampaignEvent : Option Bool
  campaignId : Option (Option String)
deriving DecidableEq

/-- Model of `detectVenmailWebhookKind` from `src/index.ts`: sequential structural
checks — falsy payload ⇒ unknown; string `event_type` ⇒ integration; truthy
`form_id` and `events` ⇒ form; truthy `original_message` and `bounce` ⇒
bounce; truthy `status` and `message` ⇒ status; truthy `rcpt_to` and
`message_id` ⇒ mail; otherwise unknown. -/
def detectVenmailWebhookKind (payload : JSVal) : VenmailWebhookInspection :=
  if ¬ truthy payload then ⟨"unknown", none, none⟩
  else if isStringVal (getField payload "event_type") then ⟨"integration", none, none⟩
  else if truthy (getField payload "form_id") && truthy (getField payload "events") then
    ⟨"form", none, none⟩
  else if truthy (getField payload "original_message") && truthy (getField payload "bounce") then
    let campaignId := extractCampaignId (getField (getField payload "original_message") "tag")
    ⟨"bounce", some (truthyStrOrNull campaignId), some campaignId⟩
  else if truthy (getField payload "status") && truthy (getField payload "message") then
    let campaignId := extractCampaignId (getField (getField payload "message") "tag")
    ⟨"status", some (truthyStrOrNull campaignId), some campaignId⟩
  else if truthy (getField payload "rcpt_to") && truthy (getField payload "message_id") then
    ⟨"mail", none, none⟩
  else ⟨"unknown", none, none⟩

/-- Model of `isMailWebhookPayload`: `Boolean(payload && payload.message_id && payload.rcpt_to)`. -/
def isMailWebhookPayload (v : JSVal) : Bool :=
  truthy v && truthy (getField v "message_id") && truthy (getField v "rcpt_to")

/-- Model of `isStatusPayload`: `Boolean(payload && payload.status && payload.message)`. -/
def isStatusPayload (v : JSVal) : Bool :=
  truthy v && truthy (getField v "status") && truthy (getField v "message")

/-- Model of `isBouncePayload`: `Boolean(payload && payload.original_message && payload.bounce)`. -/
def isBouncePayload (v : JSVal) : Bool :=
  truthy v && truthy (getField v "original_message") && truthy (getField v "bounce")

/-- Result shape of `normalizeDeliveryEvent`. `messageId`, `recipient` and
`status` carry the raw JS values read from the payload (`JSVal.undefined`
models an absent value); `campaignId` is a JS `string | null`. -/
structure NormalizedDeliveryEvent where
  messageId : JSVal
  recipient : JSVal
  status : JSVal
  campaignId : Option String
  payload : JSVal

/-- Model of `normalizeDeliveryEvent` from `src/index.ts`: bounce shape first, then
status shape, then an Unknown-status fallback. -/
def normalizeDeliveryEvent (payload : JSVal) : NormalizedDeliveryEvent :=
  if isBouncePayload payload then
    let message := getField payload "original_message"
    { messageId := getField message "message_id"
      recipient := getField message "to"
      status := .str "MessageBounced"
      campaignId := extractCampaignId (getField message "tag")
      payload := payload }
  else if isStatusPayload payload then
    let message := if nullish (getField payload "message") then .obj [] else getField payload "message"
    { messageId := getField message "message_id"
      recipient := getField message "to"
      status := getField payload "status"
      campaignId := extractCampaignId (getField message "tag")
      payload := payload }
  else
    { messageId := .undefined
      recipient := .undefined
      status := .str "Unknown"
      campaignId := none
      payload := payload }

/-- The shape predicates of the classifier paired with the kind each one
selects, in source order. -/
def shapeChecks (p : JSVal) : List (Bool × String) :=
  [(isStringVal (getField p "event_type"), "integration"),
   (truthy (getField p "form_id") && truthy (getField p "events"), "form"),
   (truthy (getField p "original_message") && truthy (getField p "bounce"), "bounce"),
   (truthy (getField p "status") && truthy (getField p "message"), "status"),
   (truthy (getField p "rcpt_to") && truthy (getField p "message_id"), "mail")]

/-- First-match classification in the fixed sequential order
Integration → Form → Bounce → Status → Mail → Unknown, as the specification
describes the classifier: the first matching rule wins. -/
def firstMatchKind (p : JSVal) : String :=
  if ¬ truthy p then "unknown"
  else
    match (shapeChecks p).find? (fun c => c.1) with
    | some c => c.2
    | none => "unknown"

/-- The delivery-event normalizer as the specification describes it: an input
matching the Bounce shape (even if it also matches the Status shape) yields
the literal status `"MessageBounced"` with messageId/recipient/campaignId
taken from `original_message`; an input matching only the Status shape yields
the status copied verbatim from the input's `status` field with
messageId/recipient/campaignId taken from `message`; anything else yields
status `"Unknown"` with messageId and recipient absent and campaignId null. -/
def normalizeDeliveryEventSpec (payload : JSVal) : NormalizedDeliveryEvent :=
  if isBouncePayload payload then
    { messageId := getField (getField payload "original_message") "message_id"
      recipient := getField (getField payload "original_message") "to"
      status := .str "MessageBounced"
      campaignId := extractCampaignId (getField (getField payload "original_message") "tag")
      payload := payload }
  else if isStatusPayload payload then
    { messageId := getField (getField payload "message") "message_id"
      recipient := getField (getField payload "message") "to"
      status := getField payload "status"
      campaignId := extractCampaignId (getField (getField payload "message") "tag")
      payload := payload }
  else
    { messageId := .undefined
      recipient := .undefined
      status := .str "Unknown"
      campaignId := none
      payload := payload }

/-! ### Bytes, UTF-8, hex and base64 codecs

Bytes are natural numbers below 256; 32-bit words are natural numbers below
2^32 with overflow made explicit through `% 4294967296`. -/

/-- Standard UTF-8 encoding of one Unicode scalar value (1–4 bytes), the
encoding `Buffer.from(s, "utf8")` applies per character. -/
def utf8EncodeChar (c : Char) : List Nat :=
  let n := c.toNat
  if n < 128 then [n]
  else if n < 2048 then [192 + n / 64, 128 + n % 64]
  else if n < 65536 then [224 + n / 4096, 128 + n / 64 % 64, 128 + n % 64]
  else [240 + n / 262144, 128 + n / 4096 % 64, 128 + n / 64 % 64, 128 + n % 64]

/-- UTF-8 encoding of a character sequence. -/
def utf8List : List Char → List Nat
  | [] => []
  | c :: cs => utf8EncodeChar c ++ utf8List cs

/-- Node `Buffer.from(s, "utf8")`: the UTF-8 bytes of a string. -/
def utf8Bytes (s : String) : List Nat := utf8List s.data

/-- Lowercase hex digit character for a value below 16 (`digest("hex")`
produces lowercase hex). -/
def hexDigitChar (n : Nat) : Char :=
  if n < 10 then Char.ofNat (48 + n) else Char.ofNat (87 + n)

/-- Hex encoding of a byte list, two characters per byte. -/
def hexEncodeList : List Nat → List Char
  | [] => []
  | b :: bs => hexDigitChar (b / 16) :: hexDigitChar (b % 16) :: hexEncodeList bs

/-- Hex encoding of a byte list as a string. -/
def hexEncode (bs : List Nat) : String := ⟨hexEncodeList bs⟩

/-- Numeric value of a hex digit character; Node accepts both cases. -/
def hexDigitVal (c : Char) : Option Nat :=
  if 48 ≤ c.toNat ∧ c.toNat ≤ 57 then some (c.toNat - 48)
  else if 97 ≤ c.toNat ∧ c.toNat ≤ 102 then some (c.toNat - 87)
  else if 65 ≤ c.toNat ∧ c.toNat ≤ 70 then some (c.toNat - 55)
  else none

/-- Node `Buffer.from(s, "hex")` as Node implements it: decodes two-character
pairs and truncates at the first invalid character or dangling half pair;
it never throws. -/
def hexDecodeList : List Char → List Nat
  | c1 :: c2 :: rest =>
    match hexDigitVal c1, hexDigitVal c2 with
    | some h, some l => (16 * h + l) :: hexDecodeList rest
    | _, _ => []
  | _ => []

/-- Node hex decoding of a string. -/
def hexDecode (s : String) : List Nat := hexDecodeList s.data

/-- The standard base64 alphabet. -/
def base64Chars : List Char :=
  "ABCDEFGHIJKLMNOPQRSTUVWXYZabcdefghijklmnopqrstuvwxyz0123456789+/".data

/-- Base64 character for a 6-bit value. -/
def base64EncChar (n : Nat) : Char := base64Chars.getD n 'A'

/-- RFC 4648 base64 encoding with padding, as `digest("base64")` produces. -/
def base64EncodeList : List Nat → List Char
  | a :: b :: c :: rest =>
    base64EncChar (a / 4) :: base64EncChar (a % 4 * 16 + b / 16) ::
    base64EncChar (b % 16 * 4 + c / 64) :: base64EncChar (c % 64) :: base64EncodeList rest
  | [a, b] => [base64EncChar (a / 4), base64EncChar (a % 4 * 16 + b / 16),
               base64EncChar (b % 16 * 4), '=']
  | [a] => [base64EncChar (a / 4), base64EncChar (a % 4 * 16), '=', '=']
  | [] => []

/-- Numeric 6-bit value of a base64 character, accepting the URL-safe alphabet as
Node does. -/
def base64DigitVal (c : Char) : Option Nat :=
  let n := c.toNat
  if 65 ≤ n ∧ n ≤ 90 then some (n - 65)
  else if 97 ≤ n ∧ n ≤ 122 then some (n - 71)
  else if 48 ≤ n ∧ n ≤ 57 then some (n + 4)
  else if c = '+' ∨ c = '-' then some 62
  else if c = '/' ∨ c = '_' then some 63
  else none

/-- Reassemble decoded 6-bit groups into bytes, tolerating an unpadded
tail, as Node's forgiving base64 decoder does. -/
def base64Assemble : List Nat → List Nat
  | a :: b :: c :: d :: rest =>
    (a * 4 + b / 16) :: (b % 16 * 16 + c / 4) :: (c % 4 * 64 + d) :: base64Assemble rest
  | [a, b, c] => [a * 4 + b / 16, b % 16 * 16 + c / 4]
  | [a, b] => [a * 4 + b / 16]
  | _ => []

/-- Node `Buffer.from(s, "base64")` as Node's forgiving decoder behaves:
characters outside the alphabet (including padding) are ignored and the
remaining 6-bit groups are reassembled; it never throws. -/
def base64Decode (s : String) : List Nat :=
  base64Assemble (s.data.filterMap base64DigitVal)

/-! ### SHA-256 and HMAC-SHA256 (the algorithms behind
`crypto.createHmac("sha256", ...)`) -/

/-- Addition modulo 2^32. -/
def add32 (a b : Nat) : Nat := (a + b) % 4294967296

/-- Right rotation of a 32-bit word, arithmetically: the low `n` bits move
to the top. -/
def rotr32 (n x : Nat) : Nat := (x / 2 ^ n + x % 2 ^ n * 2 ^ (32 - n)) % 4294967296

/-- Bitwise complement on 32 bits. -/
def not32 (x : Nat) : Nat := 4294967295 - x % 4294967296

/-- SHA-256 `Ch(x,y,z)`. -/
def shaCh (x y z : Nat) : Nat := Nat.xor (Nat.land x y) (Nat.land (not32 x) z)

/-- SHA-256 `Maj(x,y,z)`. -/
def shaMaj (x y z : Nat) : Nat :=
  Nat.xor (Nat.land x y) (Nat.xor (Nat.land x z) (Nat.land y z))

/-- SHA-256 `Σ0`. -/
def bigSigma0 (x : Nat) : Nat := Nat.xor (rotr32 2 x) (Nat.xor (rotr32 13 x) (rotr32 22 x))

/-- SHA-256 `Σ1`. -/
def bigSigma1 (x : Nat) : Nat := Nat.xor (rotr32 6 x) (Nat.xor (rotr32 11 x) (rotr32 25 x))

/-- SHA-256 `σ0`. -/
def smallSigma0 (x : Nat) : Nat := Nat.xor (rotr32 7 x) (Nat.xor (rotr32 18 x) (x / 2 ^ 3))

/-- SHA-256 `σ1`. -/
def smallSigma1 (x : Nat) : Nat := Nat.xor (rotr32 17 x) (Nat.xor (rotr32 19 x) (x / 2 ^ 10))

/-- The 64 SHA-256 round constants. -/
def shaK : List Nat :=
  [1116352408, 1899447441, 3049323471, 3921009573, 961987163, 1508970993,
   2453635748, 2870763221, 3624381080, 310598401, 607225278, 1426881987,
   1925078388, 2162078206, 2614888103, 3248222580, 3835390401, 4022224774,
   264347078, 604807628, 770255983, 1249150122, 1555081692, 1996064986,
   2554220882, 2821834349, 2952996808, 3210313671, 3336571891, 3584528711,
   113926993, 338241895, 666307205, 773529912, 1294757372, 1396182291,
   1695183700, 1986661051, 2177026350, 2456956037, 2730485921, 2820302411,
   3259730800, 3345764771, 3516065817, 3600352804, 4094571909, 275423344,
   430227734, 506948616, 659060556, 883997877, 958139571, 1322822218,
   1537002063, 1747873779, 1955562222, 2024104815, 2227730452, 2361852424,
   2428436474, 2756734187, 3204031479, 3329325298]

/-- The SHA-256 initial hash value. -/
def shaH0 : List Nat :=
  [1779033703, 3144134277, 1013904242, 2773480762,
   1359893119, 2600822924, 528734635, 1541459225]

/-- Big-endian bytes of a number, `k` bytes wide. -/
def beBytes : Nat → Nat → List Nat
  | 0, _ => []
  | k + 1, n => beBytes k (n / 256) ++ [n % 256]

/-- SHA-256 padding: append `0x80`, zero bytes to 56 mod 64, and the 64-bit
big-endian bit length. -/
def shaPad (msg : List Nat) : List Nat :=
  msg ++ 128 :: List.replicate ((119 - msg.length % 64) % 64) 0 ++ beBytes 8 (8 * msg.length)

/-- Split a byte list into 64-byte blocks. -/
def chunksOf64 (l : List Nat) : List (List Nat) :=
  if h : l = [] then [] else l.take 64 :: chunksOf64 (l.drop 64)
termination_by l.length
decreasing_by
  have hl : 0 < l.length := List.length_pos.mpr h
  simp [List.length_drop]
  omega

/-- Big-endian 32-bit words from bytes. -/
def bytesToWords : List Nat → List Nat
  | a :: b :: c :: d :: rest => (((a * 256 + b) * 256 + c) * 256 + d) :: bytesToWords rest
  | _ => []

/-- Bytes of a 32-bit word list, big-endian. -/
def wordsToBytes : List Nat → List Nat
  | [] => []
  | w :: ws => w / 16777216 % 256 :: w / 65536 % 256 :: w / 256 % 256 :: w % 256 :: wordsToBytes ws

/-- Extend the 16 message-schedule words to 64. -/
def shaSchedule (w16 : List Nat) : List Nat :=
  (List.range 48).foldl
    (fun w _ =>
      let n := w.length
      w ++ [add32 (add32 (smallSigma1 (w.getD (n - 2) 0)) (w.getD (n - 7) 0))
                  (add32 (smallSigma0 (w.getD (n - 15) 0)) (w.getD (n - 16) 0))])
    w16

/-- One SHA-256 round on the state `[a,b,c,d,e,f,g,h]`, where `kw` is the
round constant already added to the schedule word. -/
def compressRound (s : List Nat) (kw : Nat) : List Nat :=
  match s with
  | [a, b, c, d, e, f, g, h] =>
    let t1 := add32 h (add32 (bigSigma1 e) (add32 (shaCh e f g) kw))
    let t2 := add32 (bigSigma0 a) (shaMaj a b c)
    [add32 t1 t2, a, b, c, add32 d t1, e, f, g]
  | s => s

/-- SHA-256 compression of one 64-byte block into the running hash. -/
def compressBlock (h : List Nat) (block : List Nat) : List Nat :=
  let ws := shaSchedule (bytesToWords block)
  let s := (List.zipWith add32 shaK ws).foldl compressRound h
  List.zipWith add32 h s

/-- SHA-256 of a byte list. -/
def sha256 (msg : List Nat) : List Nat :=
  wordsToBytes ((chunksOf64 (shaPad msg)).foldl compressBlock shaH0)

/-- HMAC-SHA256 with a 64-byte block size, as
`crypto.createHmac("sha256", key).update(msg).digest()` computes. -/
def hmacSHA256 (key msg : List Nat) : List Nat :=
  let k0 := if 64 < key.length then sha256 key else key
  let kp := k0 ++ List.replicate (64 - k0.length) 0
  sha256 (kp.map (fun b => Nat.xor b 92) ++ sha256 (kp.map (fun b => Nat.xor b 54) ++ msg))

/-! ### Constant-time comparison and the two verifiers -/

/-- Modelled from the spec: Node's `crypto.timingSafeEqual` (a platform
primitive, not part of `src/`) compares two equal-length byte buffers in
constant time — it XORs every byte pair and ORs the results together with no
early exit.  The first component is the accumulated difference, the second
counts the byte comparisons performed. -/
def ctCompareTrace : List Nat → List Nat → Nat × Nat
  | a :: as, b :: bs =>
    let r := ctCompareTrace as bs
    (r.1 ||| (a ^^^ b), r.2 + 1)
  | _, _ => (0, 0)

/-- The boolean result of the constant-time comparison. -/
def timingSafeEqual (a b : List Nat) : Bool := (ctCompareTrace a b).1 == 0

/-- Number of byte comparisons the constant-time comparison performs. -/
def ctSteps (a b : List Nat) : Nat := (ctCompareTrace a b).2

/-- The `encoding` option of the signature verifier: `"hex" | "base64"`,
defaulting to hex. -/
inductive SigEncoding where
  | hex : SigEncoding
  | base64 : SigEncoding

/-- Node `digest(encoding)`: string encoding of the digest bytes. -/
def encodeDigest : SigEncoding → List Nat → String
  | .hex, bs => hexEncode bs
  | .base64, bs => ⟨base64EncodeList bs⟩

/-- Node `Buffer.from(s, encoding)` for the supported signature encodings. -/
def decodeBuffer : SigEncoding → String → List Nat
  | .hex, s => hexDecode s
  | .base64, s => base64Decode s

/-- The `rawBody: Buffer | string` argument. -/
inductive RawBody where
  | buffer : List Nat → RawBody
  | str : String → RawBody

/-- The raw body bytes: a string body is UTF-8 encoded before hashing. -/
def rawBodyBytes : RawBody → List Nat
  | .buffer b => b
  | .str s => utf8Bytes s

/-- Model of `verifyVenmailSignature` from `src/index.ts`: throws on an empty secret;
returns false on an empty signature; otherwise HMAC-SHA256 of the raw body
under the secret, encoded with the requested encoding, is compared against
the provided signature with `crypto.timingSafeEqual` over the Node-decoded
buffers — the `try/catch` around the comparison (which throws only on a
length mismatch) becomes an explicit length guard. -/
def verifyVenmailSignature (secret signature : String) (rawBody : RawBody)
    (encoding : SigEncoding) : Except String Bool :=
  if secret = "" then .error "Venmail signature validation requires a secret"
  else if signature = "" then .ok false
  else
    let computed := encodeDigest encoding (hmacSHA256 (utf8Bytes secret) (rawBodyBytes rawBody))
    let a := decodeBuffer encoding signature
    let b := decodeBuffer encoding computed
    .ok (if a.length = b.length then timingSafeEqual a b else false)

/-- Model of `verifySharedSecretHeader` from `src/index.ts`: throws on an empty
secret; returns false on a missing or empty header; otherwise compares the
UTF-8 bytes of the two strings with `crypto.timingSafeEqual`, the length
guard again standing for the caught length-mismatch exception. -/
def verifySharedSecretHeader (secret : String) (provided : Option String) :
    Except String Bool :=
  if secret = "" then .error "Missing expected secret for header validation"
  else
    match provided with
    | none => .ok false
    | some p =>
      if p = "" then .ok false
      else
        .ok (if (utf8Bytes secret).length = (utf8Bytes p).length
             then timingSafeEqual (utf8Bytes secret) (utf8Bytes p) else false)

/-! ### The Express webhook adaptor -/

/-- Result of the caller-supplied `onEvent` handler: it completes (having
written a response or not, per `res.headersSent`) or throws. -/
inductive OnEventResult where
  | completed (headersSent : Bool) : OnEventResult
  | threw : OnEventResult

/-- Outcome of one invocation of the handler returned by
`venmailIntegrationWebhook`: the adaptor writes a response, writes nothing
further (the caller already responded or `autoRespond` is off), or forwards
a thrown error to `next`.  `invoked` records whether `onEvent` ran. -/
inductive HandlerOutcome where
  | respond (status : Nat) (body : JSVal) (invoked : Bool) : HandlerOutcome
  | noResponse (invoked : Bool) : HandlerOutcome
  | nextError (invoked : Bool) : HandlerOutcome

/-- The request data the adaptor consumes: the resolved raw body bytes (the
collaborator-supplied extraction) and the two header values, `none` when a
header is missing. -/
structure AdaptorRequest where
  rawBody : List Nat
  signatureHeaderValue : Option String
  eventHeaderValue : Option String

/-- The enriched event `{...parsed, headers: {...}}`: the parsed body spread
together with a synthesized `headers` object holding the resolved event type
(`req.get(eventHeader) ?? parsed.event_type ?? ""`) and the raw signature.
Index properties of primitive bodies are not modelled. -/
def enrichEvent (parsed : JSVal) (eventHeaderValue : Option String)
    (providedSignature : String) : JSVal :=
  let resolvedEvent : JSVal :=
    match eventHeaderValue with
    | some s => .str s
    | none =>
      if nullish (getField parsed "event_type") then .str ""
      else getField parsed "event_type"
  let hdrs : JSVal := .obj [("x-venmail-event", resolvedEvent),
                            ("x-venmail-signature", .str providedSignature)]
  match parsed with
  | .obj fs => .obj (fs.filter (fun q => q.1 != "headers") ++ [("headers", hdrs)])
  | _ => .obj [("headers", hdrs)]

/-- The request handler returned by `venmailIntegrationWebhook` from
`src/index.ts`, with the platform collaborators abstracted: `parseJson`
stands for `JSON.parse` over the raw bytes (`none` models a parse throw) and
`onEvent` for the caller handler.  The surrounding `try/catch` forwards any
thrown error — including the empty-secret configuration error — to `next`. -/
def venmailIntegrationWebhook (secret : String) (onEvent : JSVal → OnEventResult)
    (allowUnsigned : Bool) (autoRespond : Bool)
    (parseJson : List Nat → Option JSVal) (req : AdaptorRequest) : HandlerOutcome :=
  let providedSignature := req.signatureHeaderValue.getD ""
  let isValid : Except String Bool :=
    if allowUnsigned then .ok true
    else verifyVenmailSignature secret providedSignature (.buffer req.rawBody) .hex
  match isValid with
  | .error _ => .nextError false
  | .ok false =>
    .respond 401 (.obj [("ok", .bool false), ("error", .str "Invalid Venmail signature")]) false
  | .ok true =>
    match parseJson req.rawBody with
    | none => .nextError false
    | some parsed =>
      match onEvent (enrichEvent parsed req.eventHeaderValue providedSignature) with
      | .threw => .nextError true
      | .completed headersSent =>
        if autoRespond && !headersSent then .respond 200 (.obj [("ok", .bool true)]) true
        else .noResponse true


/-! ### Helper lemmas about the JS value model -/

theorem truthy_not_nullish {v : JSVal} (h : truthy v = true) : nullish v = false := by
  cases v <;> simp_all [truthy, nullish]

theorem truthy_of_field_string {p : JSVal} {k : String}
    (h : isStringVal (getField p k) = true) : truthy p = true := by
  cases p <;> simp_all [getField, truthy, isStringVal]

theorem splitOnChar_ne_nil (c : Char) (l : List Char) : splitOnChar c l ≠ [] := by
  induction l with
  | nil => simp [splitOnChar]
  | cons x xs ih =>
    simp only [splitOnChar]
    split <;> simp

theorem splitOnChar_cons (c x : Char) (xs : List Char) :
    splitOnChar c (x :: xs) =
      if x = c then [] :: splitOnChar c xs
      else (x :: (splitOnChar c xs).headI) :: (splitOnChar c xs).tail := rfl

theorem splitOnChar_append_sep (c : Char) (p rest : List Char) (hp : c ∉ p) :
    splitOnChar c (p ++ c :: rest) = p :: splitOnChar c rest := by
  induction p with
  | nil => simp [splitOnChar]
  | cons x xs ih =>
    have hx : ¬ x = c := fun he => hp (he ▸ List.mem_cons_self x xs)
    have ihr := ih (fun hm => hp (List.mem_cons_of_mem x hm))
    rw [List.cons_append, splitOnChar_cons, if_neg hx, ihr]
    simp [List.headI]

/-- Case inversion for `detectVenmailWebhookKind`: each classified kind
implies its branch condition held. -/
theorem detect_kind_inv (p : JSVal) :
    ((detectVenmailWebhookKind p).kind = "status" →
        truthy (getField p "status") = true ∧ truthy (getField p "message") = true)
  ∧ ((detectVenmailWebhookKind p).kind = "mail" →
        truthy (getField p "rcpt_to") = true ∧ truthy (getField p "message_id") = true)
  ∧ ((detectVenmailWebhookKind p).kind = "bounce" →
        truthy (getField p "original_message") = true ∧ truthy (getField p "bounce") = true)
  ∧ ((detectVenmailWebhookKind p).kind = "form" →
        truthy (getField p "form_id") = true ∧ truthy (getField p "events") = true) := by
  unfold detectVenmailWebhookKind
  cases h0 : truthy p <;>
  cases h1 : isStringVal (getField p "event_type") <;>
  cases h2 : (truthy (getField p "form_id") && truthy (getField p "events")) <;>
  cases h3 : (truthy (getField p "original_message") && truthy (getField p "bounce")) <;>
  cases h4 : (truthy (getField p "status") && truthy (getField p "message")) <;>
  cases h5 : (truthy (getField p "rcpt_to") && truthy (getField p "message_id")) <;>
    simp_all [Bool.and_eq_true]

/-- Inversion for the `campaignId` field: only the bounce and status branches
of `detectVenmailWebhookKind` produce a `campaignId`, and they always set
`isCampaignEvent` to `Boolean(campaignId)`. -/
theorem detect_campaignId_inv (p : JSVal) (cid : Option String)
    (h : (detectVenmailWebhookKind p).campaignId = some cid) :
    (detectVenmailWebhookKind p).isCampaignEvent = some (truthyStrOrNull cid) := by
  revert h
  unfold detectVenmailWebhookKind
  cases h0 : truthy p <;>
  cases h1 : isStringVal (getField p "event_type") <;>
  cases h2 : (truthy (getField p "form_id") && truthy (getField p "events")) <;>
  cases h3 : (truthy (getField p "original_message") && truthy (getField p "bounce")) <;>
  cases h4 : (truthy (getField p "status") && truthy (getField p "message")) <;>
  cases h5 : (truthy (getField p "rcpt_to") && truthy (getField p "message_id")) <;>
    simp_all

theorem truthyStrOrNull_eq_true_iff (cid : Option String) :
    truthyStrOrNull cid = true ↔ ∃ s, cid = some s ∧ s ≠ "" := by
  cases cid <;> simp [truthyStrOrNull]

/-! ### Claim theorems: classification and normalization -/

/-- C2: `detectVenmailWebhookKind` applies the structural shape checks in the
fixed sequential order Integration → Form → Bounce → Status → Mail → Unknown,
and a payload satisfying several shapes is classified by the first matching
rule; in particular a payload with a string `event_type` field together with
truthy `rcpt_to` and `message_id` fields classifies as `"integration"`, not
`"mail"`. -/
theorem detect_kind_first_match_order :
    (∀ p, (detectVenmailWebhookKind p).kind = firstMatchKind p)
  ∧ (∀ p, isStringVal (getField p "event_type") = true →
      truthy (getField p "rcpt_to") = true →
      truthy (getField p "message_id") = true →
      (detectVenmailWebhookKind p).kind = "integration") := by
  constructor
  · intro p
    unfold detectVenmailWebhookKind firstMatchKind shapeChecks
    cases h0 : truthy p <;>
    cases h1 : isStringVal (getField p "event_type") <;>
    cases h2 : (truthy (getField p "form_id") && truthy (getField p "events")) <;>
    cases h3 : (truthy (getField p "original_message") && truthy (getField p "bounce")) <;>
    cases h4 : (truthy (getField p "status") && truthy (getField p "message")) <;>
    cases h5 : (truthy (getField p "rcpt_to") && truthy (getField p "message_id")) <;>
      simp_all [List.find?]
  · intro p h1 h2 h3
    have h0 := truthy_of_field_string h1
    simp [detectVenmailWebhookKind, h0, h1]

/-- Witness for C2: a payload carrying `event_type`, `rcpt_to` and
`message_id` together is classified as integration. -/
theorem detect_kind_first_match_order_witness :
    (detectVenmailWebhookKind
        (.obj [("event_type", .str "MailReceived"), ("rcpt_to", .str "a@b.c"),
               ("message_id", .str "m1")])).kind = "integration" :=
  detect_kind_first_match_order.2 _ (by decide) (by decide) (by decide)

/-- C3: `normalizeDeliveryEvent` never fails and is fully determined by
testing the Bounce shape before the Status shape: a Bounce-shaped input (even
one also matching the Status shape) yields the literal status
`"MessageBounced"` with messageId/recipient/campaignId taken from
`original_message`; an input matching only the Status shape yields the status
copied verbatim from the input with fields taken from `message`; any other
input yields status `"Unknown"` with messageId and recipient absent and
campaignId null. -/
theorem normalizeDeliveryEvent_matches_spec :
    ∀ p, normalizeDeliveryEvent p = normalizeDeliveryEventSpec p := by
  intro p
  unfold normalizeDeliveryEvent normalizeDeliveryEventSpec
  by_cases hb : isBouncePayload p = true
  · simp [hb]
  · by_cases hs : isStatusPayload p = true
    · have hm : truthy (getField p "message") = true := by
        have h' := hs
        unfold isStatusPayload at h'
        simp only [Bool.and_eq_true] at h'
        exact h'.2
      simp [hb, hs, truthy_not_nullish hm]
    · simp [hb, hs]

/-- C7 counterexample: the claim says the extracted campaign id is the entire
substring after the first colon, so that the tag `"campaign:a:b"` would yield
`"a:b"`; the code computes `tag.split(":")[1]`, which yields `"a"`. -/
theorem extractCampaignId_counterexample :
    extractCampaignId (.str "campaign:a:b") = some "a"
    ∧ (detectVenmailWebhookKind
        (.obj [("original_message", .obj [("tag", .str "campaign:a:b")]),
               ("bounce", .obj [])])).campaignId = some (some "a")
    ∧ (normalizeDeliveryEvent
        (.obj [("original_message", .obj [("tag", .str "campaign:a:b")]),
               ("bounce", .obj [])])).campaignId = some "a"
    ∧ ("a" : String) ≠ "a:b" := by
  refine ⟨by decide, by decide, ?_, by decide⟩
  rfl

/-- C7 (amended): for every tag of the form `"campaign:" ++ id`, the
extracted campaign id is the portion of `id` before its first colon (all of
`id` when it has no colon), possibly empty; a string tag not starting with
`"campaign:"`, and any non-string or absent tag, yields no campaign id. -/
theorem extractCampaignId_second_segment :
    (∀ id : String,
        extractCampaignId (.str ("campaign:" ++ id)) = some ⟨(splitOnChar ':' id.data).headI⟩)
  ∧ (∀ s : String, jsStartsWith s "campaign:" = false → extractCampaignId (.str s) = none)
  ∧ (∀ v : JSVal, (∀ s, v ≠ .str s) → extractCampaignId v = none) := by
  refine ⟨?_, ?_, ?_⟩
  · intro id
    have hdata : ("campaign:" ++ id).data = "campaign".data ++ ':' :: id.data := by
      have hlit : "campaign:".data = "campaign".data ++ [':'] := by decide
      rw [String.data_append, hlit, List.append_assoc]
      rfl
    have hne : ("campaign:" ++ id) ≠ "" := by
      intro he
      have h2 : ("campaign:" ++ id).data = "".data := by rw [he]
      rw [hdata] at h2
      simp at h2
    have hpre : jsStartsWith ("campaign:" ++ id) "campaign:" = true := by
      unfold jsStartsWith
      rw [String.data_append]
      exact List.isPrefixOf_iff_prefix.mpr (List.prefix_append _ _)
    simp only [extractCampaignId, hne, hpre, if_true, if_false, ite_false, ite_true]
    unfold jsSplit
    rw [hdata, splitOnChar_append_sep _ _ _ (by decide)]
    obtain ⟨h, t, ht⟩ := List.exists_cons_of_ne_nil (splitOnChar_ne_nil ':' id.data)
    rw [ht]
    simp [List.headI]
  · intro s hs
    by_cases he : s = ""
    · simp [extractCampaignId, he]
    · simp [extractCampaignId, he, hs]
  · intro v hv
    cases v <;> first
      | rfl
      | exact absurd rfl (hv _)

/-- Witness for C7 (amended) at concrete inputs. -/
theorem extractCampaignId_second_segment_witness :
    extractCampaignId (.str "campaign:abc:def") = some "abc"
    ∧ extractCampaignId (.str "x") = none :=
  ⟨(extractCampaignId_second_segment.1 "abc:def").trans (by decide),
   extractCampaignId_second_segment.2.1 "x" (by decide)⟩

/-- C8 counterexample: a bounce payload whose message tag is exactly
`"campaign:"` gets `campaignId = ""` — a string, hence non-null — while
`isCampaignEvent` is `false`, refuting "`isCampaignEvent` is true iff
`campaignId` is non-null". -/
theorem isCampaignEvent_empty_id_counterexample :
    detectVenmailWebhookKind
        (.obj [("original_message", .obj [("tag", .str "campaign:")]), ("bounce", .obj [])])
      = ⟨"bounce", some false, some (some "")⟩
    ∧ (some "" : Option String) ≠ none := by
  decide

/-- C8 (amended): whenever `detectVenmailWebhookKind` returns a `campaignId`
(exactly the bounce and status classifications), `isCampaignEvent` is
`Boolean(campaignId)`: true iff the campaign id is a non-null and non-empty
string. -/
theorem isCampaignEvent_iff_truthy_campaignId :
    ∀ p cid, (detectVenmailWebhookKind p).campaignId = some cid →
      (detectVenmailWebhookKind p).isCampaignEvent = some (truthyStrOrNull cid)
      ∧ ((detectVenmailWebhookKind p).isCampaignEvent = some true
          ↔ ∃ s, cid = some s ∧ s ≠ "") := by
  intro p cid h
  have h1 := detect_campaignId_inv p cid h
  refine ⟨h1, ?_⟩
  rw [h1]
  simp [truthyStrOrNull_eq_true_iff]

/-- Witness for C8 (amended): a status payload tagged `campaign:99` is a
campaign event. -/
theorem isCampaignEvent_iff_truthy_campaignId_witness :
    (detectVenmailWebhookKind
        (.obj [("status", .str "MessageDelivered"),
               ("message", .obj [("tag", .str "campaign:99")])])).isCampaignEvent
      = some true :=
  (isCampaignEvent_iff_truthy_campaignId
      (.obj [("status", .str "MessageDelivered"),
             ("message", .obj [("tag", .str "campaign:99")])])
      (some "99") (by decide)).1.trans (by decide)

/-- C10 counterexample: an `event_type` that is present but falsy (the empty
string) is not treated as absent — the payload still classifies as
`"integration"` via the `typeof` check, whereas removing the field yields
`"unknown"`. -/
theorem event_type_falsy_counterexample :
    truthy (.str "") = false
    ∧ detectVenmailWebhookKind (.obj [("event_type", .str "")])
        = ⟨"integration", none, none⟩
    ∧ detectVenmailWebhookKind (.obj []) = ⟨"unknown", none, none⟩ := by
  decide

/-- C10 (amended): every structural check of the classifier other than the
integration check, and each of the three guards, tests field truthiness — a
required field that is present but falsy (the empty string, 0, false, null)
makes the corresponding guard false and rules the corresponding kind out,
exactly as if the field were absent; the integration check however tests
`typeof event_type === "string"`, so a payload with a string `event_type`,
even the falsy empty string, classifies as integration. -/
theorem truthiness_guards_amended :
    (∀ p, truthy (getField p "status") = false ∨ truthy (getField p "message") = false →
        isStatusPayload p = false ∧ (detectVenmailWebhookKind p).kind ≠ "status")
  ∧ (∀ p, truthy (getField p "message_id") = false ∨ truthy (getField p "rcpt_to") = false →
        isMailWebhookPayload p = false ∧ (detectVenmailWebhookKind p).kind ≠ "mail")
  ∧ (∀ p, truthy (getField p "original_message") = false ∨ truthy (getField p "bounce") = false →
        isBouncePayload p = false ∧ (detectVenmailWebhookKind p).kind ≠ "bounce")
  ∧ (∀ p, truthy (getField p "form_id") = false ∨ truthy (getField p "events") = false →
        (detectVenmailWebhookKind p).kind ≠ "form")
  ∧ (∀ p s, getField p "event_type" = JSVal.str s → truthy p = true →
        (detectVenmailWebhookKind p).kind = "integration") := by
  refine ⟨?_, ?_, ?_, ?_, ?_⟩
  · intro p h
    constructor
    · rcases h with h | h <;> simp [isStatusPayload, h]
    · intro hk
      have hc := (detect_kind_inv p).1 hk
      rcases h with h | h <;> simp [h] at hc
  · intro p h
    constructor
    · rcases h with h | h <;> simp [isMailWebhookPayload, h]
    · intro hk
      have hc := (detect_kind_inv p).2.1 hk
      rcases h with h | h <;> simp [h] at hc
  · intro p h
    constructor
    · rcases h with h | h <;> simp [isBouncePayload, h]
    · intro hk
      have hc := (detect_kind_inv p).2.2.1 hk
      rcases h with h | h <;> simp [h] at hc
  · intro p h hk
    have hc := (detect_kind_inv p).2.2.2 hk
    rcases h with h | h <;> simp [h] at hc
  · intro p s hs h0
    simp [detectVenmailWebhookKind, h0, hs, isStringVal]

/-- Witness for C10 (amended): a payload whose `status` is the empty string
fails the status guard and is not classified as status. -/
theorem truthiness_guards_amended_witness :
    isStatusPayload (.obj [("status", .str ""), ("message", .obj [])]) = false
    ∧ (detectVenmailWebhookKind
        (.obj [("status", .str ""), ("message", .obj [])])).kind ≠ "status" :=
  truthiness_guards_amended.1 _ (Or.inl (by decide))

/-! ### Helper lemmas: constant-time comparison -/

theorem nat_lor_eq_zero_iff (a b : Nat) : a ||| b = 0 ↔ a = 0 ∧ b = 0 := by
  constructor
  · intro h
    have key : ∀ i, a.testBit i = false ∧ b.testBit i = false := by
      intro i
      have hb := congrArg (fun n => Nat.testBit n i) h
      simpa [Nat.testBit_lor, Nat.zero_testBit] using hb
    exact ⟨Nat.zero_of_testBit_eq_false (fun i => (key i).1),
           Nat.zero_of_testBit_eq_false (fun i => (key i).2)⟩
  · rintro ⟨rfl, rfl⟩
    rfl

theorem ctCompareTrace_self (l : List Nat) : ctCompareTrace l l = (0, l.length) := by
  induction l with
  | nil => rfl
  | cons a as ih => simp [ctCompareTrace, ih, Nat.xor_self, Nat.zero_or]

theorem timingSafeEqual_self (l : List Nat) : timingSafeEqual l l = true := by
  simp [timingSafeEqual, ctCompareTrace_self]

theorem ctCompareTrace_fst_eq_zero_iff :
    ∀ a b : List Nat, a.length = b.length → ((ctCompareTrace a b).1 = 0 ↔ a = b) := by
  intro a
  induction a with
  | nil => intro b hb; cases b <;> simp_all [ctCompareTrace]
  | cons x xs ih =>
    intro b hb
    cases b with
    | nil => simp at hb
    | cons y ys =>
      have hlen : xs.length = ys.length := by simpa using hb
      simp only [ctCompareTrace]
      rw [nat_lor_eq_zero_iff, Nat.xor_eq_zero, ih ys hlen]
      simp only [List.cons.injEq]
      tauto

theorem timingSafeEqual_eq_true_iff {a b : List Nat} (h : a.length = b.length) :
    timingSafeEqual a b = true ↔ a = b := by
  simp [timingSafeEqual, ctCompareTrace_fst_eq_zero_iff a b h]

theorem ctSteps_eq_length : ∀ a b : List Nat, a.length = b.length → ctSteps a b = a.length := by
  intro a
  induction a with
  | nil => intro b hb; cases b <;> simp_all [ctSteps, ctCompareTrace]
  | cons x xs ih =>
    intro b hb
    cases b with
    | nil => simp at hb
    | cons y ys =>
      have hlen : xs.length = ys.length := by simpa using hb
      simp only [ctSteps, ctCompareTrace, List.length_cons]
      have := ih ys hlen
      simp only [ctSteps] at this
      omega

/-! ### Helper lemmas: hex codec -/

theorem hexDigitVal_hexDigitChar {n : Nat} (h : n < 16) :
    hexDigitVal (hexDigitChar n) = some n := by
  interval_cases n <;> decide

theorem hexEncodeList_length (bs : List Nat) : (hexEncodeList bs).length = 2 * bs.length := by
  induction bs with
  | nil => rfl
  | cons b t ih =>
    simp only [hexEncodeList, List.length_cons, ih]
    omega

theorem hexDecodeList_hexEncodeList (bs : List Nat) (h : ∀ b ∈ bs, b < 256) :
    hexDecodeList (hexEncodeList bs) = bs := by
  induction bs with
  | nil => rfl
  | cons b t ih =>
    have hb : b < 256 := h b (List.mem_cons_self _ _)
    have h1 : b / 16 < 16 := by omega
    have h2 : b % 16 < 16 := by omega
    simp only [hexEncodeList, hexDecodeList,
      hexDigitVal_hexDigitChar h1, hexDigitVal_hexDigitChar h2]
    rw [ih (fun x hx => h x (List.mem_cons_of_mem _ hx))]
    congr 1
    omega

theorem hexDecodeList_encode_append_char (bs : List Nat) (c : Char)
    (h : ∀ b ∈ bs, b < 256) :
    hexDecodeList (hexEncodeList bs ++ [c]) = bs := by
  induction bs with
  | nil => rfl
  | cons b t ih =>
    have hb : b < 256 := h b (List.mem_cons_self _ _)
    have h1 : b / 16 < 16 := by omega
    have h2 : b % 16 < 16 := by omega
    simp only [hexEncodeList, List.cons_append, hexDecodeList,
      hexDigitVal_hexDigitChar h1, hexDigitVal_hexDigitChar h2, List.append_eq]
    rw [ih (fun x hx => h x (List.mem_cons_of_mem _ hx))]
    congr 1
    omega

/-! ### Helper lemmas: SHA-256 digest shape -/

theorem compressRound_length (s : List Nat) (kw : Nat) :
    (compressRound s kw).length = s.length := by
  rcases s with _ | ⟨a, _ | ⟨b, _ | ⟨c, _ | ⟨d, _ | ⟨e, _ | ⟨f, _ | ⟨g, _ | ⟨h, _ | ⟨i, t⟩⟩⟩⟩⟩⟩⟩⟩⟩ <;>
    rfl

theorem foldl_compressRound_length (l : List Nat) (s : List Nat) :
    (l.foldl compressRound s).length = s.length := by
  induction l generalizing s with
  | nil => rfl
  | cons x xs ih => rw [List.foldl_cons, ih, compressRound_length]

theorem compressBlock_length (h block : List Nat) :
    (compressBlock h block).length = h.length := by
  unfold compressBlock
  simp [List.length_zipWith, foldl_compressRound_length]

theorem foldl_compressBlock_length (blocks : List (List Nat)) (h : List Nat) :
    (blocks.foldl compressBlock h).length = h.length := by
  induction blocks generalizing h with
  | nil => rfl
  | cons b bs ih => rw [List.foldl_cons, ih, compressBlock_length]

theorem wordsToBytes_length (ws : List Nat) :
    (wordsToBytes ws).length = 4 * ws.length := by
  induction ws with
  | nil => rfl
  | cons w t ih =>
    simp only [wordsToBytes, List.length_cons, ih]
    omega

theorem sha256_length (m : List Nat) : (sha256 m).length = 32 := by
  unfold sha256
  rw [wordsToBytes_length, foldl_compressBlock_length]
  rfl

theorem wordsToBytes_lt (ws : List Nat) : ∀ b ∈ wordsToBytes ws, b < 256 := by
  induction ws with
  | nil => simp [wordsToBytes]
  | cons w t ih =>
    intro b hb
    simp only [wordsToBytes, List.mem_cons] at hb
    rcases hb with rfl | rfl | rfl | rfl | hb
    · omega
    · omega
    · omega
    · omega
    · exact ih b hb

theorem sha256_lt (m : List Nat) : ∀ b ∈ sha256 m, b < 256 := by
  unfold sha256
  exact wordsToBytes_lt _

theorem hmacSHA256_length (k m : List Nat) : (hmacSHA256 k m).length = 32 := by
  simp only [hmacSHA256]
  exact sha256_length _

theorem hmacSHA256_lt (k m : List Nat) : ∀ b ∈ hmacSHA256 k m, b < 256 := by
  simp only [hmacSHA256]
  exact sha256_lt _

theorem hmacSHA256_ne_nil (k m : List Nat) : hmacSHA256 k m ≠ [] := by
  intro he
  have := hmacSHA256_length k m
  rw [he] at this
  simp at this

theorem hexEncode_ne_empty {bs : List Nat} (h : bs ≠ []) : hexEncode bs ≠ "" := by
  intro he
  have h2 : hexEncodeList bs = [] := congrArg String.data he
  rcases bs with _ | ⟨b, t⟩
  · exact h rfl
  · simp [hexEncodeList] at h2

/-! ### Helper lemmas: UTF-8 injectivity -/

theorem char_toNat_lt (c : Char) : c.toNat < 1114112 := by
  rcases c.valid with h | ⟨h1, h2⟩
  · exact Nat.lt_trans h (by norm_num)
  · exact h2

theorem char_toNat_inj {c1 c2 : Char} (h : c1.toNat = c2.toNat) : c1 = c2 := by
  have hv : c1.val = c2.val := UInt32.toNat.inj h
  exact Char.ext hv

theorem utf8EncodeChar_ne_nil (c : Char) : utf8EncodeChar c ≠ [] := by
  by_cases h1 : c.toNat < 128 <;> by_cases h2 : c.toNat < 2048 <;>
    by_cases h3 : c.toNat < 65536 <;> simp [utf8EncodeChar, h1, h2, h3]

theorem utf8EncodeChar_append_inj {c1 c2 : Char} {r1 r2 : List Nat}
    (h : utf8EncodeChar c1 ++ r1 = utf8EncodeChar c2 ++ r2) :
    c1 = c2 ∧ r1 = r2 := by
  have v1 := char_toNat_lt c1
  have v2 := char_toNat_lt c2
  unfold utf8EncodeChar at h
  by_cases a1 : c1.toNat < 128 <;>
  by_cases a2 : c1.toNat < 2048 <;>
  by_cases a3 : c1.toNat < 65536 <;>
  by_cases b1 : c2.toNat < 128 <;>
  by_cases b2 : c2.toNat < 2048 <;>
  by_cases b3 : c2.toNat < 65536 <;>
  simp only [a1, a2, a3, b1, b2, b3, if_true, if_false, ite_true, ite_false,
    eq_self_iff_true, not_true, not_false_iff, List.cons_append, List.nil_append,
    List.cons.injEq] at h <;>
  first
    | omega
    | (obtain ⟨h1, h2⟩ := h
       first
         | exact ⟨char_toNat_inj (by omega), h2⟩
         | omega)
    | (obtain ⟨h1, h2, h3⟩ := h
       first
         | exact ⟨char_toNat_inj (by omega), h3⟩
         | omega)
    | (obtain ⟨h1, h2, h3, h4⟩ := h
       first
         | exact ⟨char_toNat_inj (by omega), h4⟩
         | omega)
    | (obtain ⟨h1, h2, h3, h4, h5⟩ := h
       first
         | exact ⟨char_toNat_inj (by omega), h5⟩
         | omega)

theorem utf8List_inj : ∀ l1 l2 : List Char, utf8List l1 = utf8List l2 → l1 = l2 := by
  intro l1
  induction l1 with
  | nil =>
    intro l2 h
    cases l2 with
    | nil => rfl
    | cons c t =>
      exfalso
      have hne := utf8EncodeChar_ne_nil c
      simp only [utf8List] at h
      rcases he : utf8EncodeChar c with _ | ⟨x, xs⟩
      · exact hne he
      · rw [he] at h
        simp at h
  | cons c1 t1 ih =>
    intro l2 h
    cases l2 with
    | nil =>
      exfalso
      have hne := utf8EncodeChar_ne_nil c1
      simp only [utf8List] at h
      rcases he : utf8EncodeChar c1 with _ | ⟨x, xs⟩
      · exact hne he
      · rw [he] at h
        simp at h
    | cons c2 t2 =>
      simp only [utf8List] at h
      obtain ⟨hc, hr⟩ := utf8EncodeChar_append_inj h
      rw [hc, ih t2 hr]

theorem utf8Bytes_inj {s1 s2 : String} (h : utf8Bytes s1 = utf8Bytes s2) : s1 = s2 := by
  exact String.ext (utf8List_inj s1.data s2.data h)

theorem string_append_ne_empty (s t : String) (ht : t ≠ "") : s ++ t ≠ "" := by
  intro he
  have hl := congrArg String.length he
  rw [String.length_append, String.length_empty] at hl
  have h0 : t.length = 0 := by omega
  have hd : t.data = [] := List.length_eq_zero.mp h0
  exact ht (String.ext hd)

theorem string_append_ne_self (s t : String) (ht : t ≠ "") : s ++ t ≠ s := by
  intro he
  have hl := congrArg String.length he
  rw [String.length_append] at hl
  have h0 : t.length = 0 := by omega
  have hd : t.data = [] := List.length_eq_zero.mp h0
  exact ht (String.ext hd)

/-- The hex-encoded verifier accepts exactly when the Node-decoded signature
equals the HMAC digest. -/
theorem verify_hex_ok_iff (secret sig : String) (body : List Nat)
    (hs : secret ≠ "") (hsig : sig ≠ "") :
    verifyVenmailSignature secret sig (.buffer body) .hex = .ok true
      ↔ hexDecode sig = hmacSHA256 (utf8Bytes secret) body := by
  unfold verifyVenmailSignature
  rw [if_neg hs, if_neg hsig]
  simp only [encodeDigest, decodeBuffer, rawBodyBytes]
  rw [show hexDecode (hexEncode (hmacSHA256 (utf8Bytes secret) body))
        = hmacSHA256 (utf8Bytes secret) body from
      hexDecodeList_hexEncodeList _ (hmacSHA256_lt _ _)]
  have hiff : ∀ x : Bool, (Except.ok x : Except String Bool) = .ok true ↔ x = true := by
    intro x
    constructor
    · intro h
      injection h
    · intro h
      rw [h]
  rw [hiff]
  by_cases hlen : (hexDecode sig).length = (hmacSHA256 (utf8Bytes secret) body).length
  · rw [if_pos hlen, timingSafeEqual_eq_true_iff hlen]
  · rw [if_neg hlen]
    constructor
    · intro h
      exact absurd h (by simp)
    · intro h
      rw [h] at hlen
      exact absurd rfl hlen

theorem base64DigitVal_base64EncChar {n : Nat} (h : n < 64) :
    base64DigitVal (base64EncChar n) = some n := by
  interval_cases n <;> decide

theorem base64DigitVal_pad : base64DigitVal '=' = none := by decide

theorem base64_roundtrip :
    ∀ bs : List Nat, (∀ b ∈ bs, b < 256) →
      base64Assemble ((base64EncodeList bs).filterMap base64DigitVal) = bs := by
  intro bs
  induction bs using base64EncodeList.induct with
  | case1 a b c rest ih =>
    intro h
    have ha : a < 256 := h a (by simp)
    have hb : b < 256 := h b (by simp)
    have hc : c < 256 := h c (by simp)
    have h1 : a / 4 < 64 := by omega
    have h2 : a % 4 * 16 + b / 16 < 64 := by omega
    have h3 : b % 16 * 4 + c / 64 < 64 := by omega
    have h4 : c % 64 < 64 := by omega
    simp only [base64EncodeList, List.filterMap_cons,
      base64DigitVal_base64EncChar h1, base64DigitVal_base64EncChar h2,
      base64DigitVal_base64EncChar h3, base64DigitVal_base64EncChar h4]
    rw [base64Assemble, ih (fun x hx => h x (by simp [hx]))]
    simp only [List.cons.injEq]
    refine ⟨by omega, by omega, by omega, trivial⟩
  | case2 a b =>
    intro h
    have ha : a < 256 := h a (by simp)
    have hb : b < 256 := h b (by simp)
    have h1 : a / 4 < 64 := by omega
    have h2 : a % 4 * 16 + b / 16 < 64 := by omega
    have h3 : b % 16 * 4 < 64 := by omega
    simp only [base64EncodeList, List.filterMap_cons,
      base64DigitVal_base64EncChar h1, base64DigitVal_base64EncChar h2,
      base64DigitVal_base64EncChar h3, base64DigitVal_pad, List.filterMap_nil]
    rw [base64Assemble]
    simp only [List.cons.injEq]
    refine ⟨by omega, by omega, trivial⟩
  | case3 a =>
    intro h
    have ha : a < 256 := h a (by simp)
    have h1 : a / 4 < 64 := by omega
    have h2 : a % 4 * 16 < 64 := by omega
    simp only [base64EncodeList, List.filterMap_cons,
      base64DigitVal_base64EncChar h1, base64DigitVal_base64EncChar h2,
      base64DigitVal_pad, List.filterMap_nil]
    rw [base64Assemble]
    simp only [List.cons.injEq]
    refine ⟨by omega, trivial⟩
  | case4 =>
    intro _
    rfl

/-- Decoding the digest's own encoding recovers the digest bytes, for both
supported encodings. -/
theorem decode_encodeDigest (enc : SigEncoding) (bs : List Nat)
    (h : ∀ b ∈ bs, b < 256) :
    decodeBuffer enc (encodeDigest enc bs) = bs := by
  cases enc
  · exact hexDecodeList_hexEncodeList bs h
  · exact base64_roundtrip bs h

/-- The verifier accepts exactly when the Node-decoded signature equals the
HMAC digest, for every encoding and for buffer as well as string bodies. -/
theorem verify_ok_iff (secret sig : String) (rawBody : RawBody) (enc : SigEncoding)
    (hs : secret ≠ "") (hsig : sig ≠ "") :
    verifyVenmailSignature secret sig rawBody enc = .ok true
      ↔ decodeBuffer enc sig = hmacSHA256 (utf8Bytes secret) (rawBodyBytes rawBody) := by
  unfold verifyVenmailSignature
  rw [if_neg hs, if_neg hsig]
  dsimp only
  rw [decode_encodeDigest enc _ (hmacSHA256_lt _ _)]
  have hiff : ∀ x : Bool, (Except.ok x : Except String Bool) = .ok true ↔ x = true := by
    intro x
    constructor
    · intro h
      injection h
    · intro h
      rw [h]
  rw [hiff]
  by_cases hlen : (decodeBuffer enc sig).length
      = (hmacSHA256 (utf8Bytes secret) (rawBodyBytes rawBody)).length
  · rw [if_pos hlen, timingSafeEqual_eq_true_iff hlen]
  · rw [if_neg hlen]
    constructor
    · intro h
      exact absurd h (by simp)
    · intro h
      rw [h] at hlen
      exact absurd rfl hlen

/-! ### Claim theorems: the two verifiers -/

/-- C1: for every non-empty secret and byte payload P, verifying the
lowercase-hex HMAC-SHA256 digest of P under the secret, with P as rawBody
and the default hex encoding, returns true. -/
theorem verify_accepts_valid_hex_hmac (secret : String) (P : List Nat)
    (h : secret ≠ "") :
    verifyVenmailSignature secret (hexEncode (hmacSHA256 (utf8Bytes secret) P))
      (.buffer P) .hex = .ok true := by
  have hne : hexEncode (hmacSHA256 (utf8Bytes secret) P) ≠ "" :=
    hexEncode_ne_empty (hmacSHA256_ne_nil _ _)
  rw [verify_hex_ok_iff _ _ _ h hne]
  exact hexDecodeList_hexEncodeList _ (hmacSHA256_lt _ _)

/-- Witness for C1 at a concrete secret and payload. -/
theorem verify_accepts_valid_hex_hmac_witness :
    verifyVenmailSignature "k" (hexEncode (hmacSHA256 (utf8Bytes "k") [112]))
      (.buffer [112]) .hex = .ok true :=
  verify_accepts_valid_hex_hmac "k" [112] (by decide)

/-- C4: calling either verifier with an empty secret raises a configuration
error rather than returning false, for every combination of the other
arguments. -/
theorem empty_secret_always_raises :
    (∀ (signature : String) (rawBody : RawBody) (enc : SigEncoding),
        verifyVenmailSignature "" signature rawBody enc
          = .error "Venmail signature validation requires a secret")
  ∧ (∀ provided, verifySharedSecretHeader "" provided
        = .error "Missing expected secret for header validation") :=
  ⟨fun _ _ _ => rfl, fun _ => rfl⟩

/-- C5 counterexample: a malformed hex signature — the digest's hex encoding
with a non-hex character appended — is truncated by Node's decoder back to
the digest bytes and verifies as true, not false. -/
theorem verify_malformed_hex_counterexample :
    verifyVenmailSignature "k" (hexEncode (hmacSHA256 (utf8Bytes "k") [112]) ++ "z")
        (.buffer [112]) .hex = .ok true
    ∧ hexEncode (hmacSHA256 (utf8Bytes "k") [112]) ++ "z"
        ≠ hexEncode (hmacSHA256 (utf8Bytes "k") [112]) := by
  have hlt := hmacSHA256_lt (utf8Bytes "k") [112]
  constructor
  · unfold verifyVenmailSignature
    rw [if_neg (by decide), if_neg (string_append_ne_empty _ "z" (by decide))]
    simp only [encodeDigest, decodeBuffer, rawBodyBytes, hexDecode]
    have hdata : (hexEncode (hmacSHA256 (utf8Bytes "k") [112]) ++ "z").data
        = hexEncodeList (hmacSHA256 (utf8Bytes "k") [112]) ++ ['z'] := by
      rw [String.data_append]
      rfl
    rw [hdata, hexDecodeList_encode_append_char _ _ hlt,
      show (hexEncode (hmacSHA256 (utf8Bytes "k") [112])).data
        = hexEncodeList (hmacSHA256 (utf8Bytes "k") [112]) from rfl,
      hexDecodeList_hexEncodeList _ hlt]
    simp [timingSafeEqual_self]
  · exact string_append_ne_self _ _ (by decide)

/-- C5 (amended): for every non-empty secret, both verifiers are total — they
return a boolean and never raise, for every signature, body, encoding and
`provided`.  `verifyVenmailSignature` returns false on an empty signature,
and for a non-empty signature under either encoding and either body form it
returns true exactly when the Node-decoded signature (decoding truncates
malformed hex instead of failing) equals the computed digest — so a
malformed signature whose decodable prefix is exactly the digest's encoding
verifies true, and every other mismatch yields false.
`verifySharedSecretHeader` returns false when `provided` is absent or empty
or differs from the secret, and returns true exactly when a non-empty
`provided` equals the secret. -/
theorem verify_failure_modes_amended :
    (∀ (secret : String) (rawBody : RawBody) (enc : SigEncoding), secret ≠ "" →
        verifyVenmailSignature secret "" rawBody enc = .ok false)
  ∧ (∀ (secret sig : String) (rawBody : RawBody) (enc : SigEncoding), secret ≠ "" →
        ∃ b, verifyVenmailSignature secret sig rawBody enc = .ok b)
  ∧ (∀ (secret sig : String) (rawBody : RawBody) (enc : SigEncoding),
        secret ≠ "" → sig ≠ "" →
        (verifyVenmailSignature secret sig rawBody enc = .ok true
          ↔ decodeBuffer enc sig = hmacSHA256 (utf8Bytes secret) (rawBodyBytes rawBody)))
  ∧ (∀ secret : String, secret ≠ "" →
        verifySharedSecretHeader secret none = .ok false
        ∧ verifySharedSecretHeader secret (some "") = .ok false)
  ∧ (∀ (secret : String) (provided : Option String), secret ≠ "" →
        ∃ b, verifySharedSecretHeader secret provided = .ok b)
  ∧ (∀ secret p : String, secret ≠ "" → p ≠ secret →
        verifySharedSecretHeader secret (some p) = .ok false)
  ∧ (∀ secret p : String, secret ≠ "" → p ≠ "" →
        (verifySharedSecretHeader secret (some p) = .ok true ↔ p = secret)) := by
  refine ⟨?_, ?_, ?_, ?_, ?_, ?_, ?_⟩
  · intro secret rawBody enc h
    unfold verifyVenmailSignature
    rw [if_neg h, if_pos rfl]
  · intro secret sig rawBody enc h
    unfold verifyVenmailSignature
    rw [if_neg h]
    by_cases hsig : sig = ""
    · rw [if_pos hsig]
      exact ⟨false, rfl⟩
    · rw [if_neg hsig]
      exact ⟨_, rfl⟩
  · intro secret sig rawBody enc hs hsig
    exact verify_ok_iff secret sig rawBody enc hs hsig
  · intro secret h
    constructor
    · unfold verifySharedSecretHeader
      rw [if_neg h]
    · unfold verifySharedSecretHeader
      rw [if_neg h]
      dsimp only
      rw [if_pos rfl]
  · intro secret provided h
    unfold verifySharedSecretHeader
    rw [if_neg h]
    cases provided with
    | none => exact ⟨false, rfl⟩
    | some p =>
      dsimp only
      by_cases hp : p = ""
      · rw [if_pos hp]
        exact ⟨false, rfl⟩
      · rw [if_neg hp]
        exact ⟨_, rfl⟩
  · intro secret p hs hne
    unfold verifySharedSecretHeader
    rw [if_neg hs]
    dsimp only
    by_cases hp : p = ""
    · rw [if_pos hp]
    · rw [if_neg hp]
      by_cases hlen : (utf8Bytes secret).length = (utf8Bytes p).length
      · rw [if_pos hlen]
        cases htse : timingSafeEqual (utf8Bytes secret) (utf8Bytes p) with
        | false => rfl
        | true =>
          exact absurd (utf8Bytes_inj ((timingSafeEqual_eq_true_iff hlen).mp htse)).symm hne
      · rw [if_neg hlen]
  · intro secret p hs hp
    unfold verifySharedSecretHeader
    rw [if_neg hs]
    dsimp only
    rw [if_neg hp]
    constructor
    · intro h
      have hb : (if (utf8Bytes secret).length = (utf8Bytes p).length
          then timingSafeEqual (utf8Bytes secret) (utf8Bytes p) else false) = true := by
        injection h
      by_cases hlen : (utf8Bytes secret).length = (utf8Bytes p).length
      · rw [if_pos hlen] at hb
        exact (utf8Bytes_inj ((timingSafeEqual_eq_true_iff hlen).mp hb)).symm
      · rw [if_neg hlen] at hb
        exact absurd hb (by simp)
    · intro h
      subst h
      rw [if_pos rfl, timingSafeEqual_self]

/-- Witness for C5 (amended): concrete empty-signature rejection, a
mismatched shared secret rejected with false, and a matching shared secret
accepted. -/
theorem verify_failure_modes_amended_witness :
    verifyVenmailSignature "k" "" (.buffer []) .hex = .ok false
    ∧ verifySharedSecretHeader "k" (some "x") = .ok false
    ∧ verifySharedSecretHeader "k" (some "k") = .ok true :=
  ⟨verify_failure_modes_amended.1 "k" (.buffer []) .hex (by decide),
   verify_failure_modes_amended.2.2.2.2.2.1 "k" "x" (by decide) (by decide),
   (verify_failure_modes_amended.2.2.2.2.2.2 "k" "k" (by decide) (by decide)).mpr rfl⟩

/-- C9: both verifiers compare the expected and provided values with the
constant-time primitive: the number of byte comparisons it performs depends
only on the input length, never on where the inputs differ, and each
verifier's result for non-degenerate inputs is exactly the primitive applied
to the two decoded buffers under an equal-length guard. -/
theorem constant_time_comparison :
    (∀ a b : List Nat, a.length = b.length → ctSteps a b = a.length)
  ∧ (∀ (secret sig : String) (body : List Nat), secret ≠ "" → sig ≠ "" →
      verifyVenmailSignature secret sig (.buffer body) .hex
        = .ok (if (hexDecode sig).length = (hmacSHA256 (utf8Bytes secret) body).length
               then timingSafeEqual (hexDecode sig) (hmacSHA256 (utf8Bytes secret) body)
               else false))
  ∧ (∀ secret p : String, secret ≠ "" → p ≠ "" →
      verifySharedSecretHeader secret (some p)
        = .ok (if (utf8Bytes secret).length = (utf8Bytes p).length
               then timingSafeEqual (utf8Bytes secret) (utf8Bytes p) else false)) := by
  refine ⟨ctSteps_eq_length, ?_, ?_⟩
  · intro secret sig body hs hsig
    unfold verifyVenmailSignature
    rw [if_neg hs, if_neg hsig]
    simp only [encodeDigest, decodeBuffer, rawBodyBytes]
    rw [show hexDecode (hexEncode (hmacSHA256 (utf8Bytes secret) body))
          = hmacSHA256 (utf8Bytes secret) body from
        hexDecodeList_hexEncodeList _ (hmacSHA256_lt _ _)]
  · intro secret p hs hp
    unfold verifySharedSecretHeader
    rw [if_neg hs]
    dsimp only
    rw [if_neg hp]

/-- Witness for C9: concrete step count and shared-secret comparison. -/
theorem constant_time_comparison_witness :
    ctSteps [1, 2, 3] [4, 5, 6] = [1, 2, 3].length
    ∧ verifySharedSecretHeader "ab" (some "cd")
        = .ok (if (utf8Bytes "ab").length = (utf8Bytes "cd").length
               then timingSafeEqual (utf8Bytes "ab") (utf8Bytes "cd") else false) :=
  ⟨constant_time_comparison.1 [1, 2, 3] [4, 5, 6] (by decide),
   constant_time_comparison.2.2 "ab" "cd" (by decide) (by decide)⟩

/-! ### Claim theorem: the webhook adaptor -/

/-- C6: with `allowUnsigned` false, a request whose signature fails
verification gets exactly the HTTP 401 response with JSON body
`{"ok": false, "error": "Invalid Venmail signature"}`, the handler stops,
and `onEvent` is never invoked (the outcome is independent of `onEvent`);
with `allowUnsigned` true, verification is skipped unconditionally (the
outcome is independent of the secret). -/
theorem webhook_rejects_invalid_signature :
    (∀ (secret : String) (onEvent : JSVal → OnEventResult) (autoRespond : Bool)
        (parseJson : List Nat → Option JSVal) (req : AdaptorRequest),
      verifyVenmailSignature secret (req.signatureHeaderValue.getD "")
          (.buffer req.rawBody) .hex = .ok false →
      venmailIntegrationWebhook secret onEvent false autoRespond parseJson req
        = .respond 401 (.obj [("ok", .bool false),
            ("error", .str "Invalid Venmail signature")]) false)
  ∧ (∀ (secret : String) (onEvent1 onEvent2 : JSVal → OnEventResult) (autoRespond : Bool)
        (parseJson : List Nat → Option JSVal) (req : AdaptorRequest),
      verifyVenmailSignature secret (req.signatureHeaderValue.getD "")
          (.buffer req.rawBody) .hex = .ok false →
      venmailIntegrationWebhook secret onEvent1 false autoRespond parseJson req
        = venmailIntegrationWebhook secret onEvent2 false autoRespond parseJson req)
  ∧ (∀ (secret1 secret2 : String) (onEvent : JSVal → OnEventResult) (autoRespond : Bool)
        (parseJson : List Nat → Option JSVal) (req : AdaptorRequest),
      venmailIntegrationWebhook secret1 onEvent true autoRespond parseJson req
        = venmailIntegrationWebhook secret2 onEvent true autoRespond parseJson req) := by
  have key : ∀ (secret : String) (onEvent : JSVal → OnEventResult) (autoRespond : Bool)
      (parseJson : List Nat → Option JSVal) (req : AdaptorRequest),
      verifyVenmailSignature secret (req.signatureHeaderValue.getD "")
          (.buffer req.rawBody) .hex = .ok false →
      venmailIntegrationWebhook secret onEvent false autoRespond parseJson req
        = .respond 401 (.obj [("ok", .bool false),
            ("error", .str "Invalid Venmail signature")]) false := by
    intro secret onEvent autoRespond parseJson req h
    unfold venmailIntegrationWebhook
    simp only [Bool.false_eq_true, if_false, ite_false, h]
  refine ⟨key, ?_, ?_⟩
  · intro secret onEvent1 onEvent2 autoRespond parseJson req h
    rw [key secret onEvent1 autoRespond parseJson req h,
        key secret onEvent2 autoRespond parseJson req h]
  · intro secret1 secret2 onEvent autoRespond parseJson req
    rfl

/-- Witness for C6: a request with no signature header is rejected with the
fixed 401 body and the handler is never invoked. -/
theorem webhook_rejects_invalid_signature_witness :
    venmailIntegrationWebhook "k" (fun _ => .completed false) false true
        (fun _ => none) ⟨[], none, none⟩
      = .respond 401 (.obj [("ok", .bool false),
          ("error", .str "Invalid Venmail signature")]) false :=
  webhook_rejects_invalid_signature.1 "k" (fun _ => .completed false) true
    (fun _ => none) ⟨[], none, none⟩ rfl
